import Mathlib

/-!
Shallow embedding of `msr_parser.py` (PaPaNalyze): the subscription
reconstruction pass of `parse_msr_files`, with its date parsing, currency
conversion, matching, table mutation and month summaries, followed by
theorems settling the specification claims.
-/

set_option maxHeartbeats 1000000

namespace PaPaNalyze

/-- Status of a subscription record, mirroring the status strings used in
`msr_parser.py` (`'active'`, `'tentative'`, `'canceled'`). -/
inductive Status where
  | active
  | tentative
  | canceled
deriving DecidableEq, Repr

/-- A calendar date, as produced by `datetime.date`. -/
structure Date where
  year : Nat
  month : Nat
  day : Nat
deriving DecidableEq, Repr

/-- Numeric value of a digit character. -/
def digitVal (c : Char) : Nat := c.toNat - 48

/-- Parse a one-or-two digit field with two-digit values restricted to
`1..hi`, following the regex alternations CPython `strptime` uses for the
month (`1[0-2]|0[1-9]|[1-9]`, `hi = 12`) and day
(`3[01]|[12][0-9]|0[1-9]|[1-9]`, `hi = 31`) directives.  The rendering is
deterministic because a digit can never be the character that follows the
field in the formats used here. -/
def parseNum2 (hi : Nat) : List Char → Option (Nat × List Char)
  | c1 :: c2 :: rest =>
    if c1.isDigit && c2.isDigit then
      let v := digitVal c1 * 10 + digitVal c2
      if 1 ≤ v && v ≤ hi then some (v, rest)
      else if 1 ≤ digitVal c1 then some (digitVal c1, c2 :: rest)
      else none
    else if c1.isDigit && 1 ≤ digitVal c1 then some (digitVal c1, c2 :: rest)
    else none
  | [c1] => if c1.isDigit && 1 ≤ digitVal c1 then some (digitVal c1, []) else none
  | [] => none

/-- Parse exactly four digits (the CPython `strptime` Y directive). -/
def parseYear4 : List Char → Option (Nat × List Char)
  | c1 :: c2 :: c3 :: c4 :: rest =>
    if c1.isDigit && c2.isDigit && c3.isDigit && c4.isDigit then
      some (((digitVal c1 * 10 + digitVal c2) * 10 + digitVal c3) * 10 + digitVal c4, rest)
    else none
  | _ => none

/-- Consume one expected literal character. -/
def expectChar (c : Char) : List Char → Option (List Char)
  | c1 :: rest => if c1 = c then some rest else none
  | [] => none

def isLeapYear (y : Nat) : Bool := y % 4 == 0 && (y % 100 != 0 || y % 400 == 0)

def daysInMonth (y m : Nat) : Nat :=
  if m = 2 then (if isLeapYear y then 29 else 28)
  else if m = 4 || m = 6 || m = 9 || m = 11 then 30
  else 31

/-- Construct a `datetime.date`, validating ranges the way `datetime` does
(year at least MINYEAR = 1, day within the month). -/
def mkDate (y m d : Nat) : Option Date :=
  if 1 ≤ y && 1 ≤ m && m ≤ 12 && 1 ≤ d && d ≤ daysInMonth y m then some ⟨y, m, d⟩ else none

/-- Model of `datetime.strptime` for the formats month `sep` day `sep` year
(`'%m/%d/%Y'` and `'%m-%d-%Y'`); `none` models the `ValueError`. -/
def strptimeMDY (sep : Char) (s : String) : Option Date :=
  (parseNum2 12 s.toList).bind fun p1 =>
  (expectChar sep p1.2).bind fun r2 =>
  (parseNum2 31 r2).bind fun p2 =>
  (expectChar sep p2.2).bind fun r4 =>
  (parseYear4 r4).bind fun p3 =>
  if p3.2 = [] then mkDate p3.1 p1.1 p2.1 else none

/-- Model of `datetime.strptime` for the format `'%Y-%m-%d'`. -/
def strptimeYMD (s : String) : Option Date :=
  (parseYear4 s.toList).bind fun p1 =>
  (expectChar '-' p1.2).bind fun r2 =>
  (parseNum2 12 r2).bind fun p2 =>
  (expectChar '-' p2.2).bind fun r4 =>
  (parseNum2 31 r4).bind fun p3 =>
  if p3.2 = [] then mkDate p1.1 p2.1 p3.1 else none

/-- Prefix match of the regex piece `[0-9]{1,2}sep`: two digits followed by
the separator, or one digit followed by the separator (the greedy
quantifier with backtracking is deterministic here because a digit is never
the separator). -/
def reNumSep (sep : Char) : List Char → Option (List Char)
  | c1 :: c2 :: rest =>
    if c1.isDigit then
      if c2.isDigit then
        match rest with
        | c3 :: rest2 => if c3 = sep then some rest2 else none
        | [] => none
      else if c2 = sep then some rest else none
    else none
  | _ => none

/-- Four digits, with arbitrary trailing input (`re.match` is a prefix match). -/
def reDigits4 : List Char → Bool
  | c1 :: c2 :: c3 :: c4 :: _ => c1.isDigit && c2.isDigit && c3.isDigit && c4.isDigit
  | _ => false

/-- Model of `re.match` against `[0-9]{1,2}sep[0-9]{1,2}sep[0-9]{4}`. -/
def reMatchDate (sep : Char) (s : String) : Bool :=
  match reNumSep sep s.toList with
  | none => false
  | some r1 =>
    match reNumSep sep r1 with
    | none => false
    | some r2 => reDigits4 r2

/-- Date parsing of `msr_parser.py` lines 112-118: try `MM/DD/YYYY` when the
first regex prefix-matches, else `MM-DD-YYYY` when the second does, else
`YYYY-MM-DD`; `none` is the uncaught `ValueError` raised by `strptime`. -/
def parseDateCell (s : String) : Option Date :=
  if reMatchDate '/' s then strptimeMDY '/' s
  else if reMatchDate '-' s then strptimeMDY '-' s
  else strptimeYMD s

/-- One CSV row, restricted to the columns `parse_msr_files` reads.  The
`Gross` cell is modelled by its numeric value (the string-to-float step of
lines 120-121 only strips thousands separators before any use of the
amount); `refTxnId` is `none` when the `Reference Txn ID` cell is empty
(pandas then yields a NaN float, which fails the `isinstance(.., str)`
checks). -/
structure Row where
  description : String
  date : String
  gross : ℚ
  currency : String
  fromEmail : String
  name : String
  refTxnId : Option String
deriving DecidableEq, Repr

/-- One record of the `subscriptions` dictionary (lines 159-171). -/
structure Subscription where
  id : String
  name : String
  email : String
  start : Date
  «end» : Date
  length : Nat
  currency : String
  gross : ℚ
  original_currency : String
  original_gross : ℚ
  status : Status
deriving DecidableEq, Repr

/-- Reply of the exchange-rate HTTP endpoint: its status code and the rate
found at `rates[currency]` in the JSON body. -/
structure HttpResponse where
  status_code : Nat
  rate : ℚ
deriving DecidableEq, Repr

/-- The `requests.get` collaborator of line 130, keyed by date string, base
currency and symbol. -/
def Api : Type := String → String → String → HttpResponse

/-- Decimal digits of `n`, most significant first; fuel-based so that it
computes by kernel reduction (`fuel = n` always suffices, since a positive
`n` has at most `n` decimal digits). -/
def natStrGo : Nat → Nat → List Char
  | 0, _ => []
  | fuel + 1, n => if n = 0 then [] else natStrGo fuel (n / 10) ++ [Nat.digitChar (n % 10)]

/-- Model of Python `str(n)` for a natural number. -/
def natStr (n : Nat) : String := if n = 0 then "0" else (natStrGo n n).asString

/-- Zero padding used by `strftime`. -/
def zeroPad (w : Nat) (s : String) : String :=
  if s.length < w then String.mk (List.replicate (w - s.length) '0') ++ s else s

/-- Model of `date.strftime("%Y-%m-%d")` (line 129). -/
def dateStr (d : Date) : String :=
  zeroPad 4 (natStr d.year) ++ "-" ++ zeroPad 2 (natStr d.month) ++ "-" ++ zeroPad 2 (natStr d.day)

/-- Currency handling of lines 123-133: when no reporting currency is fixed
yet (`reporting_currency == False`), the row currency becomes the reporting
currency; otherwise, when the row currency differs, the amount is divided
by the looked-up rate only when the response status is 200.  Returns the
(now fixed) reporting currency and the gross amount to accumulate. -/
def convertStep (api : Api) (rc : Option String) (date : Date) (currency : String) (gross : ℚ) :
    String × ℚ :=
  match rc with
  | none => (currency, gross)
  | some r =>
    if currency ≠ r then
      let resp := api (dateStr date) r currency
      if resp.status_code = 200 then (r, gross / resp.rate) else (r, gross)
    else (r, gross)

/-- The `subscriptions` dictionary: insertion-ordered key/record pairs. -/
abbrev SubTable := List (String × Subscription)

def dictMem (k : String) (t : SubTable) : Bool := t.any (fun p => p.1 == k)

/-- Python dict assignment `t[k] = v`: replace the value in place when the
key exists, append otherwise. -/
def dictInsert (k : String) (v : Subscription) (t : SubTable) : SubTable :=
  if dictMem k t then t.map (fun p => if p.1 == k then (k, v) else p) else t ++ [(k, v)]

/-- Dictionary lookup by key. -/
def lookup (k : String) (t : SubTable) : Option Subscription :=
  (t.find? (fun p => p.1 == k)).map Prod.snd

/-- Line 140: the row's `Reference Txn ID` is a string equal to the
subscription's id. -/
def refMatches (row : Row) (s : Subscription) : Bool :=
  match row.refTxnId with
  | some r => r == s.id
  | none => false

/-- The matching loop of lines 136-145: walk the dictionary in insertion
order, skip subscriptions that are not tentative, and stop at the first one
matched by reference-transaction id or by sender email. -/
def findMatch (row : Row) : SubTable → Option (String × Subscription)
  | [] => none
  | (k, s) :: rest =>
    if s.status ≠ Status.tentative then findMatch row rest
    else if refMatches row s then some (k, s)
    else if row.fromEmail == s.email then some (k, s)
    else findMatch row rest

/-- The candidate id `email + "_" + str(n)` of lines 155-157. -/
def candId (email : String) (n : Nat) : String := email ++ "_" ++ natStr n

/-- The while loop of lines 154-156: starting at `n`, return the first
candidate id that is not a key of the table; the fuel bounds the search
(`t.length + 1` always suffices, see `synthGo_spec`). -/
def synthGo (email : String) (t : SubTable) : Nat → Nat → String
  | 0, n => candId email n
  | fuel + 1, n => if dictMem (candId email n) t then synthGo email t fuel (n + 1) else candId email n

/-- Id selection for a new subscription (lines 150-157): the reference
transaction id when it is a string longer than 3 characters whose second
character is a dash, otherwise the synthesized `email_n` id. -/
def newSubId (row : Row) (t : SubTable) : String :=
  match row.refTxnId with
  | some r =>
    if r.length > 3 && r.toList.get? 1 == some '-' then r
    else synthGo row.fromEmail t (t.length + 1) 1
  | none => synthGo row.fromEmail t (t.length + 1) 1

/-- The per-file mutable state of lines 84-92 while scanning rows. -/
structure FileAcc where
  subscriptions : SubTable
  reporting_currency : Option String
  active_subscriptions : Nat
  new_subscriptions : Nat
  monthly_revenue : ℚ
deriving DecidableEq, Repr

/-- Processing of one CSV row (lines 106-184): skip rows whose description
is not `'Subscription Payment'`; parse the date (`none` models the
`ValueError` propagating out of the pass); fix/convert the currency; then
either renew the first matched tentative subscription or create a new
record, and bump the running counters. -/
def processRow (api : Api) (acc : FileAcc) (row : Row) : Option FileAcc :=
  if row.description ≠ "Subscription Payment" then some acc
  else match parseDateCell row.date with
  | none => none
  | some date =>
    let conv := convertStep api acc.reporting_currency date row.currency row.gross
    match findMatch row acc.subscriptions with
    | some (k, sub) =>
      let sub2 : Subscription :=
        { sub with «end» := date, length := sub.length + 1,
                   gross := sub.gross + conv.2, status := Status.active }
      some { subscriptions := dictInsert k sub2 acc.subscriptions,
             reporting_currency := some conv.1,
             active_subscriptions := acc.active_subscriptions + 1,
             new_subscriptions := acc.new_subscriptions,
             monthly_revenue := acc.monthly_revenue + conv.2 }
    | none =>
      let sid := newSubId row acc.subscriptions
      let sub2 : Subscription :=
        { id := sid, name := row.name, email := row.fromEmail,
          start := date, «end» := date, length := 1, currency := conv.1,
          gross := conv.2, original_currency := row.currency,
          original_gross := row.gross, status := Status.active }
      some { subscriptions := dictInsert sid sub2 acc.subscriptions,
             reporting_currency := some conv.1,
             active_subscriptions := acc.active_subscriptions + 1,
             new_subscriptions := acc.new_subscriptions + 1,
             monthly_revenue := acc.monthly_revenue + conv.2 }

/-- The row loop of lines 106-184 over a whole file. -/
def processRows (api : Api) (acc : FileAcc) : List Row → Option FileAcc
  | [] => some acc
  | row :: rows =>
    match processRow api acc row with
    | none => none
    | some acc2 => processRows api acc2 rows

/-- The per-record effect of lines 86-87: an active subscription becomes
tentative, any other is left alone. -/
def markFun (s : Subscription) : Subscription :=
  if s.status = Status.active then { s with status := Status.tentative } else s

/-- The per-record effect of lines 188-189: a still-tentative subscription
becomes canceled, any other is left alone. -/
def cancelFun (s : Subscription) : Subscription :=
  if s.status = Status.tentative then { s with status := Status.canceled } else s

/-- Lines 84-88: mark every active subscription tentative, counting the
marked ones as `prior_subscriptions`. -/
def markTentative (t : SubTable) : SubTable × Nat :=
  (t.map (fun p => (p.1, markFun p.2)), t.countP (fun p => p.2.status == Status.active))

/-- Lines 186-190: any subscription still tentative becomes canceled,
counting them as `canceled_subscription`. -/
def cancelTentative (t : SubTable) : SubTable × Nat :=
  (t.map (fun p => (p.1, cancelFun p.2)), t.countP (fun p => p.2.status == Status.tentative))

/-- One record of the `months` dictionary (lines 209-220).  The currency is
an `Option` because `reporting_currency` is still `False` when no row of
any file fixed it. -/
structure MonthSummary where
  id : String
  year : String
  month : String
  active_subscriptions : Nat
  new_subscriptions : Nat
  canceled_subscription : Nat
  growth : ℚ
  churn : ℚ
  revenue : ℚ
  currency : Option String
deriving DecidableEq, Repr

/-- The cross-file state threaded through the outer loop. -/
structure ParseState where
  subscriptions : SubTable
  reporting_currency : Option String
deriving DecidableEq, Repr

/-- One discovered input file, with the year and month fields already
sliced from its name (lines 94-95). -/
structure MsrFile where
  year : String
  month : String
  rows : List Row
deriving DecidableEq, Repr

/-- One iteration of the outer loop (lines 83-220) over a single file:
mark, scan the rows, cancel, compute the growth and churn figures (the
`prior_subscriptions = 0` defaults of lines 191-192), and emit the month
summary. -/
def procFile (api : Api) (st : ParseState) (f : MsrFile) : Option (ParseState × MonthSummary) :=
  let marked := markTentative st.subscriptions
  match processRows api ⟨marked.1, st.reporting_currency, 0, 0, 0⟩ f.rows with
  | none => none
  | some acc =>
    let canceled := cancelTentative acc.subscriptions
    let growth : ℚ :=
      if marked.2 ≠ 0 then 100 * (acc.new_subscriptions : ℚ) / (marked.2 : ℚ) else 100
    let churn : ℚ :=
      if marked.2 ≠ 0 then 100 * (canceled.2 : ℚ) / (marked.2 : ℚ) else 0
    some ({ subscriptions := canceled.1, reporting_currency := acc.reporting_currency },
          { id := f.year ++ "-" ++ f.month, year := f.year, month := f.month,
            active_subscriptions := acc.active_subscriptions,
            new_subscriptions := acc.new_subscriptions,
            canceled_subscription := canceled.2,
            growth := growth, churn := churn,
            revenue := acc.monthly_revenue, currency := acc.reporting_currency })

/-- The `months` dictionary. -/
abbrev MonthTable := List (String × MonthSummary)

/-- Python dict assignment for the months dictionary. -/
def dictInsertMonth (k : String) (v : MonthSummary) (t : MonthTable) : MonthTable :=
  if t.any (fun p => p.1 == k) then t.map (fun p => if p.1 == k then (k, v) else p)
  else t ++ [(k, v)]

/-- `parse_msr_files`, given the already-discovered files in sorted order
with their year and month fields already sliced from the filenames; the
initial state carries the `reporting_currency` parameter (`none` models the
`False` default). -/
def parse_msr_files (api : Api) : ParseState → MonthTable → List MsrFile →
    Option (ParseState × MonthTable)
  | st, months, [] => some (st, months)
  | st, months, f :: fs =>
    match procFile api st f with
    | none => none
    | some (st2, summary) =>
      parse_msr_files api st2 (dictInsertMonth summary.id summary months) fs

/-! ## Concrete scenario used by witnesses and counterexamples -/

/-- An exchange-rate collaborator whose lookups always fail with 404. -/
def api404 : Api := fun _ _ _ => ⟨404, 1⟩

/-- An exchange-rate collaborator answering 200 with rate 2 on every lookup. -/
def api200 : Api := fun _ _ _ => ⟨200, 2⟩

/-- January row: subscription payment from a@x.com with processor-shaped
reference id. -/
def rowJan : Row := ⟨"Subscription Payment", "01/05/2020", 10, "USD", "a@x.com", "A", some "I-AB"⟩

/-- March row: the same customer and the same reference id, after a skipped
month. -/
def rowMar : Row := ⟨"Subscription Payment", "03/05/2020", 7, "USD", "a@x.com", "A", some "I-AB"⟩

def fileJan : MsrFile := ⟨"2020", "01", [rowJan]⟩

def fileFeb : MsrFile := ⟨"2020", "02", []⟩

def fileMar : MsrFile := ⟨"2020", "03", [rowMar]⟩

/-! ## Helper lemmas -/

theorem processRow_not_payment (api : Api) (acc : FileAcc) (row : Row)
    (h : row.description ≠ "Subscription Payment") : processRow api acc row = some acc := by
  simp [processRow, h]

theorem processRows_filter_payment (api : Api) (rows : List Row) : ∀ acc : FileAcc,
    processRows api acc (rows.filter (fun r => r.description == "Subscription Payment")) =
      processRows api acc rows := by
  induction rows with
  | nil => intro acc; rfl
  | cons r rs ih =>
    intro acc
    by_cases h : r.description = "Subscription Payment"
    · rw [List.filter_cons_of_pos (by simp [h])]
      unfold processRows
      cases hp : processRow api acc r with
      | none => rfl
      | some acc2 => exact ih acc2
    · rw [List.filter_cons_of_neg (by simp [h])]
      rw [processRows, processRow_not_payment api acc r h]
      exact ih acc

theorem lookup_nil (k : String) : lookup k [] = none := rfl

theorem lookup_cons (k : String) (p : String × Subscription) (rest : SubTable) :
    lookup k (p :: rest) = if p.1 == k then some p.2 else lookup k rest := by
  by_cases h : (p.1 == k) = true
  · simp [lookup, List.find?, h]
  · simp [lookup, List.find?, h]

theorem dictMem_cons (k : String) (p : String × Subscription) (rest : SubTable) :
    dictMem k (p :: rest) = ((p.1 == k) || dictMem k rest) := by
  simp [dictMem]

theorem lookup_map_replace (k : String) (v : Subscription) :
    ∀ t : SubTable, dictMem k t = true →
      lookup k (t.map (fun p => if p.1 == k then (k, v) else p)) = some v := by
  intro t
  induction t with
  | nil => intro h; simp [dictMem] at h
  | cons p rest ih =>
    intro h
    by_cases hk : (p.1 == k) = true
    · rw [List.map_cons, if_pos hk, lookup_cons]
      simp
    · have hk2 : (p.1 == k) = false := by simpa using hk
      rw [dictMem_cons, hk2, Bool.false_or] at h
      rw [List.map_cons, if_neg (by simpa using hk), lookup_cons, if_neg (by simpa using hk)]
      exact ih h

theorem lookup_append_new (k : String) (v : Subscription) :
    ∀ t : SubTable, dictMem k t = false → lookup k (t ++ [(k, v)]) = some v := by
  intro t
  induction t with
  | nil => intro _; rw [List.nil_append, lookup_cons]; simp
  | cons p rest ih =>
    intro h
    rw [dictMem_cons, Bool.or_eq_false_iff] at h
    rw [List.cons_append, lookup_cons, if_neg (by simp [h.1])]
    exact ih h.2

theorem lookup_dictInsert_self (k : String) (v : Subscription) (t : SubTable) :
    lookup k (dictInsert k v t) = some v := by
  unfold dictInsert
  by_cases h : dictMem k t
  · rw [if_pos h]; exact lookup_map_replace k v t h
  · rw [if_neg h]; exact lookup_append_new k v t (by simpa using h)

theorem lookup_map_replace_ne (k k' : String) (v : Subscription) (hne : k' ≠ k) :
    ∀ t : SubTable, lookup k' (t.map (fun p => if p.1 == k then (k, v) else p)) = lookup k' t := by
  intro t
  induction t with
  | nil => rfl
  | cons p rest ih =>
    by_cases hk : (p.1 == k) = true
    · have hp : p.1 = k := beq_iff_eq.mp hk
      rw [List.map_cons, if_pos hk, lookup_cons, lookup_cons,
        if_neg (by simp [beq_iff_eq]; exact fun hc => hne hc.symm),
        if_neg (by simp [beq_iff_eq, hp]; exact fun hc => hne hc.symm)]
      exact ih
    · rw [List.map_cons, if_neg (by simpa using hk), lookup_cons, lookup_cons]
      by_cases hk2 : (p.1 == k') = true
      · rw [if_pos hk2, if_pos hk2]
      · rw [if_neg (by simpa using hk2), if_neg (by simpa using hk2)]
        exact ih

theorem lookup_dictInsert_ne (k k' : String) (v : Subscription) (hne : k' ≠ k) (t : SubTable) :
    lookup k' (dictInsert k v t) = lookup k' t := by
  unfold dictInsert
  by_cases h : dictMem k t
  · rw [if_pos h]; exact lookup_map_replace_ne k k' v hne t
  · rw [if_neg h]
    clear h
    induction t with
    | nil =>
      rw [List.nil_append, lookup_cons, lookup_nil,
        if_neg (by simp [beq_iff_eq]; exact fun hc => hne hc.symm)]
    | cons p rest ih =>
      rw [List.cons_append, lookup_cons, lookup_cons]
      by_cases hk2 : (p.1 == k') = true
      · rw [if_pos hk2, if_pos hk2]
      · rw [if_neg (by simpa using hk2), if_neg (by simpa using hk2)]
        exact ih

/-! ## Claim theorems -/

/-- Following the spec's words (section 4.1 step d): a subscription is a
match candidate when it is tentative and is matched by exact equality of
the reference-transaction id against the subscription id or, otherwise, by
exact equality of the sender email against the stored email. -/
def specMatches (row : Row) (s : Subscription) : Bool :=
  s.status == Status.tentative && (refMatches row s || row.fromEmail == s.email)

/-- C1: the matching procedure considers only tentative subscriptions,
matching by reference-transaction id (when it is a string) or else by
sender email, and returns the first match in iteration order, so that when
several tentative subscriptions share an email the earliest-iterated one is
chosen: `findMatch` is exactly `List.find?` of the spec's predicate over
the insertion-ordered table. -/
theorem claim_C1 (row : Row) (t : SubTable) :
    findMatch row t = t.find? (fun p => specMatches row p.2) := by
  induction t with
  | nil => rfl
  | cons p rest ih =>
    obtain ⟨k, s⟩ := p
    by_cases h1 : s.status = Status.tentative
    · by_cases h2 : refMatches row s = true
      · simp [findMatch, specMatches, h1, h2]
      · by_cases h3 : (row.fromEmail == s.email) = true
        · simp [findMatch, specMatches, h1, h2, h3]
        · simp [findMatch, specMatches, h1, h2, h3, ih]
    · simp [findMatch, specMatches, h1, ih]

/-- C8: a row whose description is not `'Subscription Payment'` contributes
nothing to any output: processing a file is identical to processing the
file with all such rows removed, so they create no subscription, modify
none, and are excluded from the active, new, canceled and revenue figures
of their month. -/
theorem claim_C8 (api : Api) (st : ParseState) (f : MsrFile) :
    procFile api st ⟨f.year, f.month,
      f.rows.filter (fun r => r.description == "Subscription Payment")⟩ = procFile api st f := by
  simp only [procFile, processRows_filter_payment]

/-- C9: ingestion is deterministic: two runs over the same sorted sequence
of files with identical row contents and identical exchange-rate responses
produce identical subscription and month tables. -/
theorem claim_C9 (api1 api2 : Api) (h : ∀ d b s, api1 d b s = api2 d b s)
    (st : ParseState) (months : MonthTable) (files : List MsrFile) :
    parse_msr_files api1 st months files = parse_msr_files api2 st months files := by
  have : api1 = api2 := funext fun d => funext fun b => funext fun s => h d b s
  rw [this]

/-- The subscription record created by the January row. -/
def subJan : Subscription :=
  ⟨"I-AB", "A", "a@x.com", ⟨2020, 1, 5⟩, ⟨2020, 1, 5⟩, 1, "USD", 10, "USD", 10, Status.active⟩

/-- The month summary emitted for the empty February file when the table
holds exactly the January subscription. -/
def smFeb : MonthSummary := ⟨"2020-02", "2020", "02", 0, 0, 1, 0, 100, 0, some "USD"⟩

/-- The month summary emitted for the January file from an empty state. -/
def smJan : MonthSummary := ⟨"2020-01", "2020", "01", 1, 1, 0, 100, 0, 10, some "USD"⟩

/-- A subscription-payment row whose date matches none of the three formats. -/
def rowBadDate : Row := ⟨"Subscription Payment", "Jan 5, 2020", 10, "USD", "b@x.com", "B", none⟩

def fileBadDate : MsrFile := ⟨"2020", "04", [rowBadDate]⟩

theorem processRow_counters (api : Api) (acc : FileAcc) (row : Row) (acc1 : FileAcc)
    (h : processRow api acc row = some acc1)
    (hd : row.description = "Subscription Payment") :
    acc1.active_subscriptions = acc.active_subscriptions + 1 ∧
    acc1.new_subscriptions ≤ acc.new_subscriptions + 1 := by
  unfold processRow at h
  rw [if_neg (by simp [hd])] at h
  cases hp : parseDateCell row.date with
  | none => rw [hp] at h; cases h
  | some d =>
    rw [hp] at h
    cases hm : findMatch row acc.subscriptions with
    | some p =>
      obtain ⟨k, sub⟩ := p
      rw [hm] at h
      simp only [Option.some.injEq] at h
      rw [← h]
      simp
    | none =>
      rw [hm] at h
      simp only [Option.some.injEq] at h
      rw [← h]
      simp

theorem processRows_counters (api : Api) (rows : List Row) : ∀ acc acc2 : FileAcc,
    processRows api acc rows = some acc2 →
    acc2.active_subscriptions = acc.active_subscriptions +
      rows.countP (fun r => r.description == "Subscription Payment") ∧
    acc2.new_subscriptions ≤ acc.new_subscriptions +
      rows.countP (fun r => r.description == "Subscription Payment") := by
  induction rows with
  | nil =>
    intro acc acc2 h
    cases h
    simp
  | cons r rs ih =>
    intro acc acc2 h
    unfold processRows at h
    cases hp : processRow api acc r with
    | none => rw [hp] at h; cases h
    | some acc1 =>
      rw [hp] at h
      obtain ⟨ha, hn⟩ := ih acc1 acc2 h
      by_cases hd : r.description = "Subscription Payment"
      · obtain ⟨ha1, hn1⟩ := processRow_counters api acc r acc1 hp hd
        rw [List.countP_cons_of_pos _ _ (by simp [hd])]
        constructor
        · omega
        · omega
      · have hacc : acc1 = acc := by
          have h2 := processRow_not_payment api acc r hd
          rw [h2] at hp
          exact ((Option.some.injEq _ _).mp hp).symm
        subst hacc
        rw [List.countP_cons_of_neg _ _ (by simp [hd])]
        exact ⟨ha, hn⟩

/-- C10: for every successfully processed file, the emitted
`active_subscriptions` equals the number of rows whose description is
`'Subscription Payment'` (every consumed row increments the counter by
exactly one, matched or not), and the new-subscription count never exceeds
it (the difference being the matched renewal rows). -/
theorem claim_C10 (api : Api) (st : ParseState) (f : MsrFile) (st2 : ParseState)
    (sm : MonthSummary) (h : procFile api st f = some (st2, sm)) :
    sm.active_subscriptions = f.rows.countP (fun r => r.description == "Subscription Payment") ∧
    sm.new_subscriptions ≤ sm.active_subscriptions := by
  simp only [procFile] at h
  cases hp : processRows api
      ⟨(markTentative st.subscriptions).1, st.reporting_currency, 0, 0, 0⟩ f.rows with
  | none => rw [hp] at h; cases h
  | some acc =>
    rw [hp] at h
    simp only [Option.some.injEq, Prod.mk.injEq] at h
    obtain ⟨ha, hn⟩ := processRows_counters api f.rows _ acc hp
    rw [← h.2]
    simp only [Nat.zero_add] at ha hn
    exact ⟨ha, by rw [ha]; exact hn⟩

theorem claim_C10_witness :
    smJan.active_subscriptions =
      fileJan.rows.countP (fun r => r.description == "Subscription Payment") ∧
    smJan.new_subscriptions ≤ smJan.active_subscriptions :=
  claim_C10 api404 ⟨[], some "USD"⟩ fileJan ⟨[("I-AB", subJan)], some "USD"⟩ smJan (by with_unfolding_all rfl)

/-- C3: for every processed file, growth and churn in the emitted month
summary follow the formulas `100 * new / prior_active` and
`100 * canceled / prior_active` when the count of subscriptions active at
the start of the pass is nonzero, and default to exactly 100 and 0 when it
is zero. -/
theorem claim_C3 (api : Api) (st : ParseState) (f : MsrFile) (st2 : ParseState)
    (sm : MonthSummary) (h : procFile api st f = some (st2, sm)) :
    (st.subscriptions.countP (fun p => p.2.status == Status.active) ≠ 0 →
      sm.growth = 100 * (sm.new_subscriptions : ℚ) /
        (st.subscriptions.countP (fun p => p.2.status == Status.active) : ℚ) ∧
      sm.churn = 100 * (sm.canceled_subscription : ℚ) /
        (st.subscriptions.countP (fun p => p.2.status == Status.active) : ℚ)) ∧
    (st.subscriptions.countP (fun p => p.2.status == Status.active) = 0 →
      sm.growth = 100 ∧ sm.churn = 0) := by
  simp only [procFile] at h
  cases hp : processRows api
      ⟨(markTentative st.subscriptions).1, st.reporting_currency, 0, 0, 0⟩ f.rows with
  | none => rw [hp] at h; cases h
  | some acc =>
    rw [hp] at h
    simp only [Option.some.injEq, Prod.mk.injEq] at h
    rw [← h.2]
    have hmk : (markTentative st.subscriptions).2 =
        st.subscriptions.countP (fun p => p.2.status == Status.active) := rfl
    constructor
    · intro h0
      constructor
      · simp [hmk, h0]
      · simp [hmk, h0]
    · intro h0
      constructor
      · simp [hmk, h0]
      · simp [hmk, h0]

theorem claim_C3_witness :
    ([("I-AB", subJan)] : SubTable).countP (fun p => p.2.status == Status.active) ≠ 0 ∧
    smFeb.growth = 100 * (smFeb.new_subscriptions : ℚ) /
      (([("I-AB", subJan)] : SubTable).countP (fun p => p.2.status == Status.active) : ℚ) ∧
    smFeb.churn = 100 * (smFeb.canceled_subscription : ℚ) /
      (([("I-AB", subJan)] : SubTable).countP (fun p => p.2.status == Status.active) : ℚ) :=
  ⟨by decide,
   (claim_C3 api404 ⟨[("I-AB", subJan)], some "USD"⟩ fileFeb
      ⟨[("I-AB", { subJan with status := Status.canceled })], some "USD"⟩ smFeb
      (by with_unfolding_all rfl)).1 (by decide)⟩

theorem processRows_date_error (api : Api) (rows : List Row) (row : Row)
    (hd : row.description = "Subscription Payment")
    (hp : parseDateCell row.date = none) :
    ∀ acc : FileAcc, row ∈ rows → processRows api acc rows = none := by
  induction rows with
  | nil => intro acc h; cases h
  | cons r rs ih =>
    intro acc hmem
    rcases List.mem_cons.mp hmem with heq | hmem2
    · subst heq
      unfold processRows
      have hnone : processRow api acc row = none := by
        unfold processRow
        rw [if_neg (by simp [hd]), hp]
      rw [hnone]
    · unfold processRows
      cases hq : processRow api acc r with
      | none => rfl
      | some acc1 => exact ih acc1 hmem2

/-- C6: date parsing tries `MM/DD/YYYY`, then `MM-DD-YYYY`, then
`YYYY-MM-DD`, in that order, and when a consumed row's date string matches
none of them the whole file pass fails with a propagated error (the row is
never silently skipped). -/
theorem claim_C6 :
    (∀ s : String, parseDateCell s =
       if reMatchDate '/' s then strptimeMDY '/' s
       else if reMatchDate '-' s then strptimeMDY '-' s
       else strptimeYMD s) ∧
    (∀ (api : Api) (st : ParseState) (f : MsrFile) (row : Row), row ∈ f.rows →
       row.description = "Subscription Payment" → parseDateCell row.date = none →
       procFile api st f = none) := by
  constructor
  · intro s; rfl
  · intro api st f row hmem hd hp
    have herr := processRows_date_error api f.rows row hd hp
      ⟨(markTentative st.subscriptions).1, st.reporting_currency, 0, 0, 0⟩ hmem
    simp only [procFile, herr]

theorem claim_C6_witness :
    (parseDateCell "Jan 5, 2020" =
       if reMatchDate '/' "Jan 5, 2020" then strptimeMDY '/' "Jan 5, 2020"
       else if reMatchDate '-' "Jan 5, 2020" then strptimeMDY '-' "Jan 5, 2020"
       else strptimeYMD "Jan 5, 2020") ∧
    procFile api404 ⟨[], some "USD"⟩ fileBadDate = none :=
  ⟨claim_C6.1 "Jan 5, 2020",
   claim_C6.2 api404 ⟨[], some "USD"⟩ fileBadDate rowBadDate (by decide) rfl (by decide)⟩

/-- C7: for every consumed row whose currency differs from the fixed
reporting currency, the gross is divided by the returned rate exactly when
the exchange-rate lookup answers HTTP 200; on any other status the
conversion is silently skipped, and the resulting amount (converted or not)
is what gets accumulated into the month's revenue and into the matched or
newly created subscription's gross. -/
theorem claim_C7 (api : Api) (acc : FileAcc) (row : Row) (rc : String) (d : Date)
    (hd : row.description = "Subscription Payment")
    (hp : parseDateCell row.date = some d)
    (hrc : acc.reporting_currency = some rc)
    (hne : row.currency ≠ rc) :
    ∃ acc2, processRow api acc row = some acc2 ∧
      acc2.monthly_revenue = acc.monthly_revenue +
        (if (api (dateStr d) rc row.currency).status_code = 200
         then row.gross / (api (dateStr d) rc row.currency).rate else row.gross) ∧
      (∀ k sub, findMatch row acc.subscriptions = some (k, sub) →
        lookup k acc2.subscriptions = some { sub with
          «end» := d,
          length := sub.length + 1,
          gross := sub.gross +
            (if (api (dateStr d) rc row.currency).status_code = 200
             then row.gross / (api (dateStr d) rc row.currency).rate else row.gross),
          status := Status.active }) ∧
      (findMatch row acc.subscriptions = none →
        lookup (newSubId row acc.subscriptions) acc2.subscriptions = some
          { id := newSubId row acc.subscriptions, name := row.name, email := row.fromEmail,
            start := d, «end» := d, length := 1, currency := rc,
            gross := (if (api (dateStr d) rc row.currency).status_code = 200
                      then row.gross / (api (dateStr d) rc row.currency).rate else row.gross),
            original_currency := row.currency, original_gross := row.gross,
            status := Status.active }) := by
  have hconv : convertStep api acc.reporting_currency d row.currency row.gross =
      (rc, if (api (dateStr d) rc row.currency).status_code = 200
           then row.gross / (api (dateStr d) rc row.currency).rate else row.gross) := by
    rw [hrc]
    by_cases h200 : (api (dateStr d) rc row.currency).status_code = 200
    · simp [convertStep, hne, h200]
    · simp [convertStep, hne, h200]
  cases hm : findMatch row acc.subscriptions with
  | some p =>
    obtain ⟨k, sub⟩ := p
    have hrun : processRow api acc row = some
        { subscriptions := dictInsert k { sub with
            «end» := d,
            length := sub.length + 1,
            gross := sub.gross +
              (if (api (dateStr d) rc row.currency).status_code = 200
               then row.gross / (api (dateStr d) rc row.currency).rate else row.gross),
            status := Status.active } acc.subscriptions,
          reporting_currency := some rc,
          active_subscriptions := acc.active_subscriptions + 1,
          new_subscriptions := acc.new_subscriptions,
          monthly_revenue := acc.monthly_revenue +
            (if (api (dateStr d) rc row.currency).status_code = 200
             then row.gross / (api (dateStr d) rc row.currency).rate else row.gross) } := by
      simp only [processRow, hd, ne_eq, hp, hconv, hm]
      simp
    refine ⟨_, hrun, rfl, ?_, ?_⟩
    · intro k2 sub2 h2
      have hk : k = k2 := congrArg Prod.fst ((Option.some.injEq _ _).mp h2)
      have hsub : sub = sub2 := congrArg Prod.snd ((Option.some.injEq _ _).mp h2)
      subst hk; subst hsub
      exact lookup_dictInsert_self k _ acc.subscriptions
    · intro h2; cases h2
  | none =>
    have hrun : processRow api acc row = some
        { subscriptions := dictInsert (newSubId row acc.subscriptions)
            { id := newSubId row acc.subscriptions, name := row.name, email := row.fromEmail,
              start := d, «end» := d, length := 1, currency := rc,
              gross := (if (api (dateStr d) rc row.currency).status_code = 200
                        then row.gross / (api (dateStr d) rc row.currency).rate else row.gross),
              original_currency := row.currency, original_gross := row.gross,
              status := Status.active } acc.subscriptions,
          reporting_currency := some rc,
          active_subscriptions := acc.active_subscriptions + 1,
          new_subscriptions := acc.new_subscriptions + 1,
          monthly_revenue := acc.monthly_revenue +
            (if (api (dateStr d) rc row.currency).status_code = 200
             then row.gross / (api (dateStr d) rc row.currency).rate else row.gross) } := by
      simp only [processRow, hd, ne_eq, hp, hconv, hm]
      simp
    refine ⟨_, hrun, rfl, ?_, ?_⟩
    · intro k2 sub2 h2; cases h2
    · intro _
      exact lookup_dictInsert_self (newSubId row acc.subscriptions) _ acc.subscriptions

/-- A euro-denominated subscription-payment row used to exercise the
currency-conversion path. -/
def rowEur : Row := ⟨"Subscription Payment", "01/07/2020", 9, "EUR", "c@x.com", "C", some "I-CD"⟩

theorem claim_C7_witness :
    ∃ acc2, processRow api404 ⟨[], some "USD", 0, 0, 0⟩ rowEur = some acc2 ∧
      acc2.monthly_revenue = (0 : ℚ) +
        (if (api404 (dateStr ⟨2020, 1, 7⟩) "USD" rowEur.currency).status_code = 200
         then rowEur.gross / (api404 (dateStr ⟨2020, 1, 7⟩) "USD" rowEur.currency).rate
         else rowEur.gross) ∧
      (∀ k sub, findMatch rowEur ([] : SubTable) = some (k, sub) →
        lookup k acc2.subscriptions = some { sub with
          «end» := ⟨2020, 1, 7⟩,
          length := sub.length + 1,
          gross := sub.gross +
            (if (api404 (dateStr ⟨2020, 1, 7⟩) "USD" rowEur.currency).status_code = 200
             then rowEur.gross / (api404 (dateStr ⟨2020, 1, 7⟩) "USD" rowEur.currency).rate
             else rowEur.gross),
          status := Status.active }) ∧
      (findMatch rowEur ([] : SubTable) = none →
        lookup (newSubId rowEur []) acc2.subscriptions = some
          { id := newSubId rowEur [], name := rowEur.name, email := rowEur.fromEmail,
            start := ⟨2020, 1, 7⟩, «end» := ⟨2020, 1, 7⟩, length := 1, currency := "USD",
            gross := (if (api404 (dateStr ⟨2020, 1, 7⟩) "USD" rowEur.currency).status_code = 200
                      then rowEur.gross / (api404 (dateStr ⟨2020, 1, 7⟩) "USD" rowEur.currency).rate
                      else rowEur.gross),
            original_currency := rowEur.currency, original_gross := rowEur.gross,
            status := Status.active }) :=
  claim_C7 api404 ⟨[], some "USD", 0, 0, 0⟩ rowEur "USD" ⟨2020, 1, 7⟩ rfl (by decide) rfl
    (by decide)

theorem claim_C9_witness :
    parse_msr_files api404 ⟨[], some "USD"⟩ [] [fileJan, fileFeb] =
      parse_msr_files (fun d b s => api404 d b s) ⟨[], some "USD"⟩ [] [fileJan, fileFeb] :=
  claim_C9 api404 (fun d b s => api404 d b s) (fun _ _ _ => rfl) ⟨[], some "USD"⟩ [] [fileJan, fileFeb]

/-- A single tentative subscription with the row's email is matched. -/
theorem findMatch_singleton (row : Row) (k : String) (s : Subscription)
    (hst : s.status = Status.tentative) (hemail : row.fromEmail = s.email) :
    findMatch row [(k, s)] = some (k, s) := by
  unfold findMatch
  rw [if_neg (by simp [hst])]
  by_cases href : refMatches row s = true
  · rw [if_pos href]
  · rw [if_neg href, if_pos (by simp [hemail])]

/-- C4: a subscription created by a single row in one file pass and matched
by a single row in the next pass ends the second pass with its length
increased by exactly 1 (from 1 to 2), its gross equal to the sum of the two
rows' converted amounts, its start date unchanged, its end date equal to
the later row's date, and its status back to active. -/
theorem claim_C4 (api : Api) (rc0 : Option String) (y1 m1 y2 m2 : String) (r1 r2 : Row)
    (d1 d2 : Date)
    (hd1 : r1.description = "Subscription Payment")
    (hd2 : r2.description = "Subscription Payment")
    (hp1 : parseDateCell r1.date = some d1)
    (hp2 : parseDateCell r2.date = some d2)
    (hem : r2.fromEmail = r1.fromEmail) :
    ∃ (st1 st2 : ParseState) (sm1 sm2 : MonthSummary) (sub1 sub2 : Subscription),
      procFile api ⟨[], rc0⟩ ⟨y1, m1, [r1]⟩ = some (st1, sm1) ∧
      st1.subscriptions = [(sub1.id, sub1)] ∧
      procFile api st1 ⟨y2, m2, [r2]⟩ = some (st2, sm2) ∧
      st2.subscriptions = [(sub1.id, sub2)] ∧
      sub1.length = 1 ∧
      sub2.length = sub1.length + 1 ∧
      sub1.start = d1 ∧
      sub2.start = sub1.start ∧
      sub2.«end» = d2 ∧
      sub1.gross = (convertStep api rc0 d1 r1.currency r1.gross).2 ∧
      sub2.gross = (convertStep api rc0 d1 r1.currency r1.gross).2 +
        (convertStep api (some (convertStep api rc0 d1 r1.currency r1.gross).1)
          d2 r2.currency r2.gross).2 ∧
      sub2.status = Status.active := by
  have h1 : procFile api ⟨[], rc0⟩ ⟨y1, m1, [r1]⟩ = some
      (⟨[(newSubId r1 [],
          { id := newSubId r1 [],
            name := r1.name,
            email := r1.fromEmail,
            start := d1,
            «end» := d1,
            length := 1,
            currency := (convertStep api rc0 d1 r1.currency r1.gross).1,
            gross := (convertStep api rc0 d1 r1.currency r1.gross).2,
            original_currency := r1.currency,
            original_gross := r1.gross,
            status := Status.active })],
        some (convertStep api rc0 d1 r1.currency r1.gross).1⟩,
       ⟨y1 ++ "-" ++ m1, y1, m1, 1, 1, 0, 100, 0,
        0 + (convertStep api rc0 d1 r1.currency r1.gross).2,
        some (convertStep api rc0 d1 r1.currency r1.gross).1⟩) := by
    simp only [procFile, markTentative, List.map_nil, List.countP_nil, processRows, processRow,
      hd1, ne_eq, hp1, findMatch, dictInsert, dictMem, List.any_nil, List.nil_append,
      cancelTentative, List.map_cons, List.countP_cons, cancelFun]
    simp
  have hfm : findMatch r2 [(newSubId r1 [],
      { id := newSubId r1 [],
        name := r1.name,
        email := r1.fromEmail,
        start := d1,
        «end» := d1,
        length := 1,
        currency := (convertStep api rc0 d1 r1.currency r1.gross).1,
        gross := (convertStep api rc0 d1 r1.currency r1.gross).2,
        original_currency := r1.currency,
        original_gross := r1.gross,
        status := Status.tentative })] = some (newSubId r1 [],
      { id := newSubId r1 [],
        name := r1.name,
        email := r1.fromEmail,
        start := d1,
        «end» := d1,
        length := 1,
        currency := (convertStep api rc0 d1 r1.currency r1.gross).1,
        gross := (convertStep api rc0 d1 r1.currency r1.gross).2,
        original_currency := r1.currency,
        original_gross := r1.gross,
        status := Status.tentative }) :=
    findMatch_singleton r2 _ _ rfl hem
  have h2 : procFile api
      ⟨[(newSubId r1 [],
          { id := newSubId r1 [],
            name := r1.name,
            email := r1.fromEmail,
            start := d1,
            «end» := d1,
            length := 1,
            currency := (convertStep api rc0 d1 r1.currency r1.gross).1,
            gross := (convertStep api rc0 d1 r1.currency r1.gross).2,
            original_currency := r1.currency,
            original_gross := r1.gross,
            status := Status.active })],
        some (convertStep api rc0 d1 r1.currency r1.gross).1⟩ ⟨y2, m2, [r2]⟩ = some
      (⟨[(newSubId r1 [],
          { id := newSubId r1 [],
            name := r1.name,
            email := r1.fromEmail,
            start := d1,
            «end» := d2,
            length := 2,
            currency := (convertStep api rc0 d1 r1.currency r1.gross).1,
            gross := (convertStep api rc0 d1 r1.currency r1.gross).2 +
              (convertStep api (some (convertStep api rc0 d1 r1.currency r1.gross).1)
                d2 r2.currency r2.gross).2,
            original_currency := r1.currency,
            original_gross := r1.gross,
            status := Status.active })],
        some (convertStep api (some (convertStep api rc0 d1 r1.currency r1.gross).1)
          d2 r2.currency r2.gross).1⟩,
       ⟨y2 ++ "-" ++ m2, y2, m2, 1, 0, 0, 0, 0,
        0 + (convertStep api (some (convertStep api rc0 d1 r1.currency r1.gross).1)
          d2 r2.currency r2.gross).2,
        some (convertStep api (some (convertStep api rc0 d1 r1.currency r1.gross).1)
          d2 r2.currency r2.gross).1⟩) := by
    simp [procFile, markTentative, markFun, processRows, processRow, hd2, hp2,
      dictInsert, dictMem, cancelTentative, cancelFun, hfm]
  refine ⟨⟨[(newSubId r1 [],
        { id := newSubId r1 [],
          name := r1.name,
          email := r1.fromEmail,
          start := d1,
          «end» := d1,
          length := 1,
          currency := (convertStep api rc0 d1 r1.currency r1.gross).1,
          gross := (convertStep api rc0 d1 r1.currency r1.gross).2,
          original_currency := r1.currency,
          original_gross := r1.gross,
          status := Status.active })],
      some (convertStep api rc0 d1 r1.currency r1.gross).1⟩,
    ⟨[(newSubId r1 [],
        { id := newSubId r1 [],
          name := r1.name,
          email := r1.fromEmail,
          start := d1,
          «end» := d2,
          length := 2,
          currency := (convertStep api rc0 d1 r1.currency r1.gross).1,
          gross := (convertStep api rc0 d1 r1.currency r1.gross).2 +
            (convertStep api (some (convertStep api rc0 d1 r1.currency r1.gross).1)
              d2 r2.currency r2.gross).2,
          original_currency := r1.currency,
          original_gross := r1.gross,
          status := Status.active })],
      some (convertStep api (some (convertStep api rc0 d1 r1.currency r1.gross).1)
        d2 r2.currency r2.gross).1⟩,
    ⟨y1 ++ "-" ++ m1, y1, m1, 1, 1, 0, 100, 0,
      0 + (convertStep api rc0 d1 r1.currency r1.gross).2,
      some (convertStep api rc0 d1 r1.currency r1.gross).1⟩,
    ⟨y2 ++ "-" ++ m2, y2, m2, 1, 0, 0, 0, 0,
      0 + (convertStep api (some (convertStep api rc0 d1 r1.currency r1.gross).1)
        d2 r2.currency r2.gross).2,
      some (convertStep api (some (convertStep api rc0 d1 r1.currency r1.gross).1)
        d2 r2.currency r2.gross).1⟩,
    { id := newSubId r1 [],
      name := r1.name,
      email := r1.fromEmail,
      start := d1,
      «end» := d1,
      length := 1,
      currency := (convertStep api rc0 d1 r1.currency r1.gross).1,
      gross := (convertStep api rc0 d1 r1.currency r1.gross).2,
      original_currency := r1.currency,
      original_gross := r1.gross,
      status := Status.active },
    { id := newSubId r1 [],
      name := r1.name,
      email := r1.fromEmail,
      start := d1,
      «end» := d2,
      length := 2,
      currency := (convertStep api rc0 d1 r1.currency r1.gross).1,
      gross := (convertStep api rc0 d1 r1.currency r1.gross).2 +
        (convertStep api (some (convertStep api rc0 d1 r1.currency r1.gross).1)
          d2 r2.currency r2.gross).2,
      original_currency := r1.currency,
      original_gross := r1.gross,
      status := Status.active },
    h1, rfl, ?_, rfl, rfl, rfl, rfl, rfl, rfl, rfl, rfl, rfl⟩
  exact h2

/-- February renewal row for the January subscription. -/
def rowFeb : Row := ⟨"Subscription Payment", "02/05/2020", 10, "USD", "a@x.com", "A", some "I-AB"⟩

theorem claim_C4_witness :
    ∃ (st1 st2 : ParseState) (sm1 sm2 : MonthSummary) (sub1 sub2 : Subscription),
      procFile api404 ⟨[], some "USD"⟩ ⟨"2020", "01", [rowJan]⟩ = some (st1, sm1) ∧
      st1.subscriptions = [(sub1.id, sub1)] ∧
      procFile api404 st1 ⟨"2020", "02", [rowFeb]⟩ = some (st2, sm2) ∧
      st2.subscriptions = [(sub1.id, sub2)] ∧
      sub1.length = 1 ∧
      sub2.length = sub1.length + 1 ∧
      sub1.start = ⟨2020, 1, 5⟩ ∧
      sub2.start = sub1.start ∧
      sub2.«end» = ⟨2020, 2, 5⟩ ∧
      sub1.gross = (convertStep api404 (some "USD") ⟨2020, 1, 5⟩ rowJan.currency rowJan.gross).2 ∧
      sub2.gross = (convertStep api404 (some "USD") ⟨2020, 1, 5⟩ rowJan.currency rowJan.gross).2 +
        (convertStep api404
          (some (convertStep api404 (some "USD") ⟨2020, 1, 5⟩ rowJan.currency rowJan.gross).1)
          ⟨2020, 2, 5⟩ rowFeb.currency rowFeb.gross).2 ∧
      sub2.status = Status.active :=
  claim_C4 api404 (some "USD") "2020" "01" "2020" "02" rowJan rowFeb ⟨2020, 1, 5⟩ ⟨2020, 2, 5⟩
    rfl rfl (by decide) (by decide) rfl

/-! ## Decimal rendering: relation to Nat.digits, injectivity of the
synthesized candidate ids -/

theorem natStrGo_eq : ∀ fuel n : Nat, n ≤ fuel →
    natStrGo fuel n = ((Nat.digits 10 n).map Nat.digitChar).reverse := by
  intro fuel
  induction fuel with
  | zero =>
    intro n h
    have : n = 0 := Nat.le_zero.mp h
    subst this
    simp [natStrGo]
  | succ fuel ih =>
    intro n h
    by_cases hn : n = 0
    · subst hn; simp [natStrGo]
    · have hdiv : n / 10 ≤ fuel := by
        have h1 : n / 10 < n := Nat.div_lt_self (Nat.pos_of_ne_zero hn) (by norm_num)
        omega
      rw [natStrGo, if_neg hn, ih _ hdiv,
        Nat.digits_def' (by norm_num : (1 : ℕ) < 10) (Nat.pos_of_ne_zero hn)]
      simp

theorem digitChar_inj_lt : ∀ a < 10, ∀ b < 10, Nat.digitChar a = Nat.digitChar b → a = b := by
  decide

theorem map_digitChar_inj : ∀ l1 l2 : List Nat, (∀ x ∈ l1, x < 10) → (∀ x ∈ l2, x < 10) →
    l1.map Nat.digitChar = l2.map Nat.digitChar → l1 = l2 := by
  intro l1
  induction l1 with
  | nil =>
    intro l2 _ _ h
    cases l2 with
    | nil => rfl
    | cons b t => simp at h
  | cons a t1 ih =>
    intro l2 h1 h2 h
    cases l2 with
    | nil => simp at h
    | cons b t2 =>
      simp only [List.map_cons, List.cons.injEq] at h
      have ha : a = b := digitChar_inj_lt a (h1 a (by simp)) b (h2 b (by simp)) h.1
      have ht : t1 = t2 :=
        ih t2 (fun x hx => h1 x (by simp [hx])) (fun x hx => h2 x (by simp [hx])) h.2
      rw [ha, ht]

theorem natStr_ne_zero_str {n : Nat} (hn : n ≠ 0) : natStr n ≠ "0" := by
  intro h
  have hd : (natStrGo n n).asString.data = ("0" : String).data := by
    rw [← h]; simp [natStr, hn]
  have hgo : natStrGo n n = ['0'] := by
    simpa [List.asString] using hd
  rw [natStrGo_eq n n le_rfl] at hgo
  have hrev : (Nat.digits 10 n).map Nat.digitChar = ['0'] := by
    have := congrArg List.reverse hgo
    simpa using this
  cases hds : Nat.digits 10 n with
  | nil => exact hn (Nat.digits_eq_nil_iff_eq_zero.mp hds)
  | cons a l =>
    rw [hds] at hrev
    simp only [List.map_cons, List.cons.injEq, List.map_eq_nil_iff] at hrev
    have ha : a < 10 := Nat.digits_lt_base (by norm_num) (by rw [hds]; simp)
    have ha0 : a = 0 := digitChar_inj_lt a ha 0 (by norm_num) (by simpa using hrev.1)
    have hdig0 : Nat.digits 10 n = [0] := by rw [hds, hrev.2, ha0]
    have hof := Nat.ofDigits_digits 10 n
    rw [hdig0] at hof
    simp [Nat.ofDigits] at hof
    exact hn hof.symm

theorem natStr_inj : Function.Injective natStr := by
  intro m n h
  by_cases hm : m = 0
  · by_cases hn : n = 0
    · rw [hm, hn]
    · subst hm
      exact absurd h.symm (natStr_ne_zero_str hn)
  · by_cases hn : n = 0
    · subst hn
      exact absurd h (natStr_ne_zero_str hm)
    · have h2 : (natStrGo m m).asString = (natStrGo n n).asString := by
        have h3 := h
        unfold natStr at h3
        rw [if_neg hm, if_neg hn] at h3
        exact h3
      have hgo : natStrGo m m = natStrGo n n := by
        have h4 := congrArg String.data h2
        simpa [List.asString] using h4
      rw [natStrGo_eq m m le_rfl, natStrGo_eq n n le_rfl] at hgo
      have hmap : (Nat.digits 10 m).map Nat.digitChar = (Nat.digits 10 n).map Nat.digitChar := by
        have := congrArg List.reverse hgo
        simpa using this
      have hdig : Nat.digits 10 m = Nat.digits 10 n :=
        map_digitChar_inj _ _ (fun x hx => Nat.digits_lt_base (by norm_num) hx)
          (fun x hx => Nat.digits_lt_base (by norm_num) hx) hmap
      exact Nat.digits.injective 10 hdig

theorem candId_inj (email : String) : Function.Injective (candId email) := by
  intro m n h
  unfold candId at h
  have hd := congrArg String.data h
  simp only [String.data_append] at hd
  have h2 : (natStr m).data = (natStr n).data := List.append_cancel_left hd
  exact natStr_inj (String.ext h2)

/-! ## The synthesized id search: the first unused candidate is found -/

theorem dictMem_iff_mem_keys (k : String) (t : SubTable) :
    dictMem k t = true ↔ k ∈ t.map Prod.fst := by
  simp only [dictMem, List.any_eq_true, List.mem_map, beq_iff_eq]

theorem synth_exists (email : String) (t : SubTable) :
    ∃ j, j < t.length + 1 ∧ dictMem (candId email (1 + j)) t = false := by
  by_contra hc
  push_neg at hc
  have hall : ∀ j, j < t.length + 1 → dictMem (candId email (1 + j)) t = true := by
    intro j hj
    have := hc j hj
    revert this
    cases dictMem (candId email (1 + j)) t <;> simp
  have hinj : Function.Injective (fun j : Nat => candId email (1 + j)) := by
    intro a b hab
    have := candId_inj email hab
    omega
  have hsub : ∀ j ∈ Finset.range (t.length + 1),
      (fun j : Nat => candId email (1 + j)) j ∈ (t.map Prod.fst).toFinset := by
    intro j hj
    rw [List.mem_toFinset]
    exact (dictMem_iff_mem_keys _ t).mp (hall j (Finset.mem_range.mp hj))
  have hcard := Finset.card_le_card_of_injOn _ hsub (Function.Injective.injOn hinj)
  rw [Finset.card_range] at hcard
  have hlen : (t.map Prod.fst).toFinset.card ≤ t.length := by
    calc (t.map Prod.fst).toFinset.card ≤ (t.map Prod.fst).length := (t.map Prod.fst).toFinset_card_le
    _ = t.length := List.length_map t Prod.fst
  omega

theorem synthGo_spec (email : String) (t : SubTable) : ∀ fuel n : Nat,
    (∃ j, j < fuel ∧ dictMem (candId email (n + j)) t = false) →
    ∃ m, n ≤ m ∧ synthGo email t fuel n = candId email m ∧
      dictMem (candId email m) t = false ∧
      ∀ i, n ≤ i → i < m → dictMem (candId email i) t = true := by
  intro fuel
  induction fuel with
  | zero =>
    rintro n ⟨j, hj, _⟩
    omega
  | succ fuel ih =>
    rintro n ⟨j, hj, hjf⟩
    by_cases hn : dictMem (candId email n) t = true
    · have hj0 : j ≠ 0 := by
        intro h0
        rw [h0, Nat.add_zero] at hjf
        rw [hjf] at hn
        cases hn
      obtain ⟨m, hm1, hm2, hm3, hm4⟩ := ih (n + 1)
        ⟨j - 1, by omega, by rw [show n + 1 + (j - 1) = n + j by omega]; exact hjf⟩
      refine ⟨m, by omega, ?_, hm3, ?_⟩
      · rw [synthGo, if_pos hn]; exact hm2
      · intro i hi1 hi2
        rcases Nat.eq_or_lt_of_le hi1 with he | hlt
        · rw [← he]; exact hn
        · exact hm4 i hlt hi2
    · have hnf : dictMem (candId email n) t = false := by
        revert hn; cases dictMem (candId email n) t <;> simp
      exact ⟨n, le_refl n, by rw [synthGo, if_neg (by rw [hnf]; simp)], hnf,
        fun i hi1 hi2 => absurd hi2 (by omega)⟩

/-- C5 counterexample: after January and February the table holds exactly
one canceled record keyed "I-AB"; the unmatched March row carries the same
processor-shaped reference id, and after the March pass the table still has
exactly one record, a freshly created one (length 1, start 2020-03-05) —
the unmatched row did not add a second record and the old canceled record
was not left intact, so the claim as stated is false. -/
theorem claim_C5_counterexample :
    (parse_msr_files api404 ⟨[], some "USD"⟩ [] [fileJan, fileFeb]).map
        (fun p => p.1.subscriptions.map (fun e => (e.1, e.2.status, e.2.length))) =
      some [("I-AB", Status.canceled, 1)] ∧
    (parse_msr_files api404 ⟨[], some "USD"⟩ [] [fileJan, fileFeb, fileMar]).map
        (fun p => (p.1.subscriptions.length,
                   p.1.subscriptions.map (fun e => (e.1, e.2.status, e.2.length, e.2.start)))) =
      some (1, [("I-AB", Status.active, 1, ⟨2020, 3, 5⟩)]) := by
  decide

/-- C5 amended: every unmatched subscription-payment row creates one new
subscription record whose id follows the stated rule (the reference id when
it is a string longer than 3 characters with a dash as second character,
else the first unused `email_n`); when the chosen id is not already a key
the record is appended and every existing record, canceled ones included,
is left intact — but when the reference-shaped id coincides with an
existing record's key, that record is overwritten in place (the table does
not grow and the old record is lost), so a resubscribing customer whose
reference id recurs replaces the old canceled record instead of getting a
second one.  The synthesized-id path always picks an unused id, hence
always appends. -/
theorem claim_C5_amended (api : Api) (acc : FileAcc) (row : Row) (d : Date)
    (hd : row.description = "Subscription Payment")
    (hp : parseDateCell row.date = some d)
    (hfm : findMatch row acc.subscriptions = none) :
    ∃ acc2 sub2,
      processRow api acc row = some acc2 ∧
      sub2 = { id := newSubId row acc.subscriptions,
               name := row.name,
               email := row.fromEmail,
               start := d,
               «end» := d,
               length := 1,
               currency := (convertStep api acc.reporting_currency d row.currency row.gross).1,
               gross := (convertStep api acc.reporting_currency d row.currency row.gross).2,
               original_currency := row.currency,
               original_gross := row.gross,
               status := Status.active } ∧
      acc2.new_subscriptions = acc.new_subscriptions + 1 ∧
      acc2.subscriptions = dictInsert (newSubId row acc.subscriptions) sub2 acc.subscriptions ∧
      (dictMem (newSubId row acc.subscriptions) acc.subscriptions = false →
        acc2.subscriptions = acc.subscriptions ++ [(newSubId row acc.subscriptions, sub2)]) ∧
      (dictMem (newSubId row acc.subscriptions) acc.subscriptions = true →
        acc2.subscriptions.length = acc.subscriptions.length ∧
        lookup (newSubId row acc.subscriptions) acc2.subscriptions = some sub2 ∧
        ∀ k, k ≠ newSubId row acc.subscriptions →
          lookup k acc2.subscriptions = lookup k acc.subscriptions) ∧
      (∀ rid, row.refTxnId = some rid →
        (rid.length > 3 && rid.toList.get? 1 == some '-') = true →
        newSubId row acc.subscriptions = rid) ∧
      ((row.refTxnId = none ∨ ∃ rid, row.refTxnId = some rid ∧
          (rid.length > 3 && rid.toList.get? 1 == some '-') = false) →
        ∃ n, 1 ≤ n ∧ newSubId row acc.subscriptions = candId row.fromEmail n ∧
          dictMem (candId row.fromEmail n) acc.subscriptions = false ∧
          ∀ i, 1 ≤ i → i < n → dictMem (candId row.fromEmail i) acc.subscriptions = true) := by
  have hrun : processRow api acc row = some
      { subscriptions := dictInsert (newSubId row acc.subscriptions)
          { id := newSubId row acc.subscriptions,
            name := row.name,
            email := row.fromEmail,
            start := d,
            «end» := d,
            length := 1,
            currency := (convertStep api acc.reporting_currency d row.currency row.gross).1,
            gross := (convertStep api acc.reporting_currency d row.currency row.gross).2,
            original_currency := row.currency,
            original_gross := row.gross,
            status := Status.active } acc.subscriptions,
        reporting_currency :=
          some (convertStep api acc.reporting_currency d row.currency row.gross).1,
        active_subscriptions := acc.active_subscriptions + 1,
        new_subscriptions := acc.new_subscriptions + 1,
        monthly_revenue := acc.monthly_revenue +
          (convertStep api acc.reporting_currency d row.currency row.gross).2 } := by
    simp only [processRow, hd, ne_eq, hp, hfm]
    simp
  refine ⟨_, _, hrun, rfl, rfl, rfl, ?_, ?_, ?_, ?_⟩
  · intro hmem
    show dictInsert (newSubId row acc.subscriptions) _ acc.subscriptions = _
    unfold dictInsert
    rw [hmem]
    simp
  · intro hmem
    refine ⟨?_, lookup_dictInsert_self _ _ _, fun k hk => lookup_dictInsert_ne _ k _ hk _⟩
    show (dictInsert (newSubId row acc.subscriptions) _ acc.subscriptions).length = _
    unfold dictInsert
    rw [hmem]
    simp
  · intro rid hrid hshape
    unfold newSubId
    rw [hrid]
    exact if_pos hshape
  · intro hcase
    have hsynth : newSubId row acc.subscriptions =
        synthGo row.fromEmail acc.subscriptions (acc.subscriptions.length + 1) 1 := by
      rcases hcase with hnone | ⟨rid, hrid, hshape⟩
      · unfold newSubId
        rw [hnone]
      · unfold newSubId
        rw [hrid]
        exact if_neg (by rw [hshape]; simp)
    obtain ⟨j, hj, hjf⟩ := synth_exists row.fromEmail acc.subscriptions
    obtain ⟨m, hm1, hm2, hm3, hm4⟩ := synthGo_spec row.fromEmail acc.subscriptions
      (acc.subscriptions.length + 1) 1 ⟨j, hj, hjf⟩
    exact ⟨m, hm1, by rw [hsynth, hm2], hm3, hm4⟩

/-- A canceled subscription whose synthesized id occupies `d@x.com_1`. -/
def subOld : Subscription :=
  ⟨"d@x.com_1", "D", "d@x.com", ⟨2020, 1, 5⟩, ⟨2020, 1, 5⟩, 1, "USD", 5, "USD", 5,
   Status.canceled⟩

/-- A subscription-payment row without a reference transaction id. -/
def rowD : Row := ⟨"Subscription Payment", "01/09/2020", 5, "USD", "d@x.com", "D", none⟩

theorem claim_C5_amended_witness :
    ∃ acc2 sub2,
      processRow api404 ⟨[("d@x.com_1", subOld)], some "USD", 0, 0, 0⟩ rowD = some acc2 ∧
      sub2 = { id := newSubId rowD [("d@x.com_1", subOld)],
               name := rowD.name,
               email := rowD.fromEmail,
               start := ⟨2020, 1, 9⟩,
               «end» := ⟨2020, 1, 9⟩,
               length := 1,
               currency := (convertStep api404 (some "USD") ⟨2020, 1, 9⟩ rowD.currency rowD.gross).1,
               gross := (convertStep api404 (some "USD") ⟨2020, 1, 9⟩ rowD.currency rowD.gross).2,
               original_currency := rowD.currency,
               original_gross := rowD.gross,
               status := Status.active } ∧
      acc2.new_subscriptions = 0 + 1 ∧
      acc2.subscriptions =
        dictInsert (newSubId rowD [("d@x.com_1", subOld)]) sub2 [("d@x.com_1", subOld)] ∧
      (dictMem (newSubId rowD [("d@x.com_1", subOld)]) [("d@x.com_1", subOld)] = false →
        acc2.subscriptions =
          [("d@x.com_1", subOld)] ++ [(newSubId rowD [("d@x.com_1", subOld)], sub2)]) ∧
      (dictMem (newSubId rowD [("d@x.com_1", subOld)]) [("d@x.com_1", subOld)] = true →
        acc2.subscriptions.length = ([("d@x.com_1", subOld)] : SubTable).length ∧
        lookup (newSubId rowD [("d@x.com_1", subOld)]) acc2.subscriptions = some sub2 ∧
        ∀ k, k ≠ newSubId rowD [("d@x.com_1", subOld)] →
          lookup k acc2.subscriptions = lookup k [("d@x.com_1", subOld)]) ∧
      (∀ rid, rowD.refTxnId = some rid →
        (rid.length > 3 && rid.toList.get? 1 == some '-') = true →
        newSubId rowD [("d@x.com_1", subOld)] = rid) ∧
      ((rowD.refTxnId = none ∨ ∃ rid, rowD.refTxnId = some rid ∧
          (rid.length > 3 && rid.toList.get? 1 == some '-') = false) →
        ∃ n, 1 ≤ n ∧ newSubId rowD [("d@x.com_1", subOld)] = candId rowD.fromEmail n ∧
          dictMem (candId rowD.fromEmail n) [("d@x.com_1", subOld)] = false ∧
          ∀ i, 1 ≤ i → i < n →
            dictMem (candId rowD.fromEmail i) [("d@x.com_1", subOld)] = true) :=
  claim_C5_amended api404 ⟨[("d@x.com_1", subOld)], some "USD", 0, 0, 0⟩ rowD ⟨2020, 1, 9⟩
    rfl (by decide) (by decide)

theorem lookup_map_fun (f : Subscription → Subscription) (k : String) :
    ∀ t : SubTable, lookup k (t.map (fun p => (p.1, f p.2))) = (lookup k t).map f := by
  intro t
  induction t with
  | nil => rfl
  | cons p rest ih =>
    rw [List.map_cons, lookup_cons, lookup_cons]
    by_cases hp : (p.1 == k) = true
    · rw [if_pos (show ((p.1, f p.2).1 == k) = true from hp), if_pos hp]
      rfl
    · rw [if_neg (show ¬((p.1, f p.2).1 == k) = true by simpa using hp),
        if_neg (by simpa using hp)]
      exact ih

/-! ## Status evolution of table entries across one file pass -/

/-- Keys of the subscription dictionary are distinct (true of any Python
dict, and preserved by every operation of the parser). -/
def keysNodup (t : SubTable) : Prop := (t.map Prod.fst).Nodup

theorem findMatch_tentative (row : Row) :
    ∀ (t : SubTable) (p : String × Subscription), findMatch row t = some p →
      p.2.status = Status.tentative ∧ p ∈ t := by
  intro t
  induction t with
  | nil => intro p h; cases h
  | cons q rest ih =>
    intro p h
    obtain ⟨k, s⟩ := q
    by_cases h1 : s.status = Status.tentative
    · by_cases h2 : refMatches row s = true
      · rw [findMatch, if_neg (by simp [h1]), if_pos h2] at h
        cases h
        exact ⟨h1, by simp⟩
      · by_cases h3 : (row.fromEmail == s.email) = true
        · rw [findMatch, if_neg (by simp [h1]), if_neg h2, if_pos h3] at h
          cases h
          exact ⟨h1, by simp⟩
        · rw [findMatch, if_neg (by simp [h1]), if_neg h2, if_neg h3] at h
          obtain ⟨hst, hmem⟩ := ih p h
          exact ⟨hst, by simp [hmem]⟩
    · rw [findMatch, if_pos (by simp [h1])] at h
      obtain ⟨hst, hmem⟩ := ih p h
      exact ⟨hst, by simp [hmem]⟩

theorem mem_nodup_lookup (k : String) (s : Subscription) :
    ∀ t : SubTable, keysNodup t → (k, s) ∈ t → lookup k t = some s := by
  intro t
  induction t with
  | nil => intro _ h; cases h
  | cons p rest ih =>
    intro hn hmem
    rcases List.mem_cons.mp hmem with heq | hmem2
    · rw [← heq, lookup_cons, if_pos (by simp)]
    · have hk : k ∈ rest.map Prod.fst := List.mem_map.mpr ⟨(k, s), hmem2, rfl⟩
      have hn2 : (p.1 :: rest.map Prod.fst).Nodup := by simpa [keysNodup] using hn
      have hne : p.1 ≠ k := fun he => (List.nodup_cons.mp hn2).1 (he ▸ hk)
      rw [lookup_cons, if_neg (by simp [hne])]
      exact ih (List.nodup_cons.mp hn2).2 hmem2

theorem keys_map_val (f : Subscription → Subscription) (t : SubTable) :
    (t.map (fun p => (p.1, f p.2))).map Prod.fst = t.map Prod.fst := by
  induction t with
  | nil => rfl
  | cons p rest ih => simp [ih]

theorem keysNodup_map_val (f : Subscription → Subscription) (t : SubTable)
    (h : keysNodup t) : keysNodup (t.map (fun p => (p.1, f p.2))) := by
  unfold keysNodup
  rw [keys_map_val]
  exact h

theorem keys_dictInsert_mem (k : String) (v : Subscription) (t : SubTable)
    (h : dictMem k t = true) :
    (dictInsert k v t).map Prod.fst = t.map Prod.fst := by
  unfold dictInsert
  rw [if_pos h, List.map_map]
  apply List.map_congr_left
  intro p _
  show (if p.1 == k then (k, v) else p).1 = p.1
  by_cases hp : (p.1 == k) = true
  · rw [if_pos hp]
    exact (beq_iff_eq.mp hp).symm
  · rw [if_neg (by simpa using hp)]

theorem keysNodup_dictInsert (k : String) (v : Subscription) (t : SubTable)
    (h : keysNodup t) : keysNodup (dictInsert k v t) := by
  by_cases hm : dictMem k t = true
  · unfold keysNodup
    rw [keys_dictInsert_mem k v t hm]
    exact h
  · unfold dictInsert keysNodup
    rw [if_neg hm]
    have hk : k ∉ t.map Prod.fst := fun hc => hm ((dictMem_iff_mem_keys k t).mpr hc)
    have h2 : (t.map Prod.fst).Nodup := h
    simp [List.nodup_append, h2, hk]

theorem keysNodup_processRow (api : Api) (acc : FileAcc) (row : Row) (acc2 : FileAcc)
    (h : processRow api acc row = some acc2) (hn : keysNodup acc.subscriptions) :
    keysNodup acc2.subscriptions := by
  by_cases hd : row.description = "Subscription Payment"
  · unfold processRow at h
    rw [if_neg (by simp [hd])] at h
    cases hp : parseDateCell row.date with
    | none => rw [hp] at h; cases h
    | some d =>
      rw [hp] at h
      cases hm : findMatch row acc.subscriptions with
      | some p =>
        obtain ⟨k, sub⟩ := p
        rw [hm] at h
        cases h
        exact keysNodup_dictInsert _ _ _ hn
      | none =>
        rw [hm] at h
        cases h
        exact keysNodup_dictInsert _ _ _ hn
  · rw [processRow_not_payment api acc row hd] at h
    cases h
    exact hn

theorem processRow_entry (api : Api) (acc : FileAcc) (row : Row) (acc2 : FileAcc)
    (hn : keysNodup acc.subscriptions)
    (h : processRow api acc row = some acc2) (k : String) (s : Subscription)
    (hl : lookup k acc.subscriptions = some s) :
    lookup k acc2.subscriptions = some s ∨
    (s.status = Status.tentative ∧ ∃ s2, lookup k acc2.subscriptions = some s2 ∧
      s2.status = Status.active) ∨
    (∃ s2, lookup k acc2.subscriptions = some s2 ∧ s2.status = Status.active ∧
      s2.length = 1 ∧ s2.start = s2.«end») := by
  by_cases hd : row.description = "Subscription Payment"
  · unfold processRow at h
    rw [if_neg (by simp [hd])] at h
    cases hp : parseDateCell row.date with
    | none => rw [hp] at h; cases h
    | some d =>
      rw [hp] at h
      cases hm : findMatch row acc.subscriptions with
      | some p =>
        obtain ⟨k0, sub0⟩ := p
        rw [hm] at h
        cases h
        obtain ⟨hst0, hmem0⟩ := findMatch_tentative row acc.subscriptions (k0, sub0) hm
        by_cases hk : k = k0
        · subst hk
          have hl0 : lookup k acc.subscriptions = some sub0 := mem_nodup_lookup k sub0 _ hn hmem0
          have hs : s = sub0 := by
            rw [hl0] at hl
            exact ((Option.some.injEq _ _).mp hl).symm
          right; left
          refine ⟨by rw [hs]; exact hst0, _, lookup_dictInsert_self _ _ acc.subscriptions, ?_⟩
          rfl
        · left
          exact lookup_dictInsert_ne k0 k _ hk acc.subscriptions ▸ hl
      | none =>
        rw [hm] at h
        cases h
        by_cases hk : k = newSubId row acc.subscriptions
        · subst hk
          right; right
          refine ⟨_, lookup_dictInsert_self _ _ acc.subscriptions, ?_, ?_, ?_⟩ <;> rfl
        · left
          exact lookup_dictInsert_ne (newSubId row acc.subscriptions) k _ hk acc.subscriptions ▸ hl
  · rw [processRow_not_payment api acc row hd] at h
    cases h
    left
    exact hl

theorem processRows_entry (api : Api) (rows : List Row) : ∀ acc acc2 : FileAcc,
    keysNodup acc.subscriptions → processRows api acc rows = some acc2 →
    ∀ k s, lookup k acc.subscriptions = some s →
    lookup k acc2.subscriptions = some s ∨
    (s.status = Status.tentative ∧ ∃ s2, lookup k acc2.subscriptions = some s2 ∧
      s2.status = Status.active) ∨
    (∃ s2, lookup k acc2.subscriptions = some s2 ∧ s2.status = Status.active ∧
      s2.length = 1 ∧ s2.start = s2.«end») := by
  induction rows with
  | nil =>
    intro acc acc2 _ h k s hl
    cases h
    exact Or.inl hl
  | cons r rs ih =>
    intro acc acc2 hn h k s hl
    unfold processRows at h
    cases hp : processRow api acc r with
    | none => rw [hp] at h; cases h
    | some acc1 =>
      rw [hp] at h
      have hn1 : keysNodup acc1.subscriptions := keysNodup_processRow api acc r acc1 hp hn
      rcases processRow_entry api acc r acc1 hn hp k s hl with h1 | ⟨hst, s2, hs2, hact⟩ |
        ⟨s2, hs2, hact, hlen, hse⟩
      · exact ih acc1 acc2 hn1 h k s h1
      · rcases ih acc1 acc2 hn1 h k s2 hs2 with h2 | ⟨hst2, s3, hs3, hact3⟩ |
          ⟨s3, hs3, hact3, hlen3, hse3⟩
        · exact Or.inr (Or.inl ⟨hst, s2, h2, hact⟩)
        · rw [hact] at hst2; cases hst2
        · exact Or.inr (Or.inr ⟨s3, hs3, hact3, hlen3, hse3⟩)
      · rcases ih acc1 acc2 hn1 h k s2 hs2 with h2 | ⟨hst2, s3, hs3, hact3⟩ |
          ⟨s3, hs3, hact3, hlen3, hse3⟩
        · exact Or.inr (Or.inr ⟨s2, h2, hact, hlen, hse⟩)
        · rw [hact] at hst2; cases hst2
        · exact Or.inr (Or.inr ⟨s3, hs3, hact3, hlen3, hse3⟩)

/-- C2 counterexample: after the January and February files the single
record keyed "I-AB" is canceled; after the March file (whose unmatched row
carries the same processor-shaped reference id) the status stored under
that same id is active again — the entry was replaced wholesale by a fresh
record — so "a canceled subscription's status never changes again", read
over the id that identifies a subscription, is false. -/
theorem claim_C2_counterexample :
    (parse_msr_files api404 ⟨[], some "USD"⟩ [] [fileJan, fileFeb]).map
        (fun p => p.1.subscriptions.map (fun e => (e.1, e.2.status))) =
      some [("I-AB", Status.canceled)] ∧
    (parse_msr_files api404 ⟨[], some "USD"⟩ [] [fileJan, fileFeb, fileMar]).map
        (fun p => p.1.subscriptions.map (fun e => (e.1, e.2.status))) =
      some [("I-AB", Status.active)] := by
  decide

/-- C2 amended: within a single file pass every subscription record follows
the discipline active → tentative → {active | canceled} (no record is left
tentative, a record that starts canceled is never mutated, a record that
starts active ends either canceled with all other fields intact or active),
and the matcher only ever selects tentative records, so a canceled record
is never matched against any later row; however the table entry under a
canceled (or any) id can be replaced wholesale by a freshly created
subscription when an unmatched row carries that same reference-shaped id,
making the status stored under that id active again. -/
theorem claim_C2_amended :
    (∀ (row : Row) (t : SubTable) (p : String × Subscription),
       findMatch row t = some p → p.2.status = Status.tentative) ∧
    (∀ (api : Api) (st : ParseState) (f : MsrFile) (st2 : ParseState) (sm : MonthSummary),
       keysNodup st.subscriptions → procFile api st f = some (st2, sm) →
       (∀ p ∈ st2.subscriptions, p.2.status ≠ Status.tentative) ∧
       (∀ k s, lookup k st.subscriptions = some s → s.status = Status.canceled →
         lookup k st2.subscriptions = some s ∨
         (∃ s2, lookup k st2.subscriptions = some s2 ∧ s2.status = Status.active ∧
           s2.length = 1 ∧ s2.start = s2.«end»)) ∧
       (∀ k s, lookup k st.subscriptions = some s → s.status = Status.active →
         lookup k st2.subscriptions = some { s with status := Status.canceled } ∨
         (∃ s2, lookup k st2.subscriptions = some s2 ∧ s2.status = Status.active))) := by
  constructor
  · intro row t p h
    exact (findMatch_tentative row t p h).1
  · intro api st f st2 sm hn h
    simp only [procFile] at h
    cases hp : processRows api
        ⟨(markTentative st.subscriptions).1, st.reporting_currency, 0, 0, 0⟩ f.rows with
    | none => rw [hp] at h; cases h
    | some acc =>
      rw [hp] at h
      simp only [Option.some.injEq, Prod.mk.injEq] at h
      have hst2 : st2.subscriptions =
          acc.subscriptions.map (fun p => (p.1, cancelFun p.2)) := by
        rw [← h.1]
        rfl
      have hnm : keysNodup (markTentative st.subscriptions).1 :=
        keysNodup_map_val markFun st.subscriptions hn
      have hmarked : ∀ k s, lookup k st.subscriptions = some s →
          lookup k (markTentative st.subscriptions).1 = some (markFun s) := by
        intro k s hl
        show lookup k (st.subscriptions.map (fun p => (p.1, markFun p.2))) = some (markFun s)
        rw [lookup_map_fun markFun k st.subscriptions, hl]
        rfl
      refine ⟨?_, ?_, ?_⟩
      · intro p hp2
        rw [hst2] at hp2
        obtain ⟨q, _, rfl⟩ := List.mem_map.mp hp2
        by_cases hq : q.2.status = Status.tentative
        · simp [cancelFun, hq]
        · simp [cancelFun, hq]
      · intro k s hl hcanc
        have hlm := hmarked k s hl
        have hms : markFun s = s := by
          simp [markFun, hcanc]
        rw [hms] at hlm
        rcases processRows_entry api f.rows _ acc hnm hp k s hlm with h1 |
          ⟨hst, _, _, _⟩ | ⟨s2, hs2, hact, hlen, hse⟩
        · left
          rw [hst2, lookup_map_fun cancelFun k acc.subscriptions, h1]
          simp [cancelFun, hcanc]
        · rw [hcanc] at hst; cases hst
        · right
          refine ⟨s2, ?_, hact, hlen, hse⟩
          rw [hst2, lookup_map_fun cancelFun k acc.subscriptions, hs2]
          simp [cancelFun, hact]
      · intro k s hl hact
        have hlm := hmarked k s hl
        have hms : markFun s = { s with status := Status.tentative } := by
          simp [markFun, hact]
        rw [hms] at hlm
        rcases processRows_entry api f.rows _ acc hnm hp k
            { s with status := Status.tentative } hlm with h1 |
          ⟨_, s2, hs2, hact2⟩ | ⟨s2, hs2, hact2, _, _⟩
        · left
          rw [hst2, lookup_map_fun cancelFun k acc.subscriptions, h1]
          simp [cancelFun]
        · right
          refine ⟨s2, ?_, hact2⟩
          rw [hst2, lookup_map_fun cancelFun k acc.subscriptions, hs2]
          simp [cancelFun, hact2]
        · right
          refine ⟨s2, ?_, hact2⟩
          rw [hst2, lookup_map_fun cancelFun k acc.subscriptions, hs2]
          simp [cancelFun, hact2]

theorem claim_C2_amended_witness :
    (("I-AB", { subJan with status := Status.tentative }) : String × Subscription).2.status =
        Status.tentative ∧
    ((∀ p ∈ (⟨[("I-AB", { subJan with status := Status.canceled })], some "USD"⟩ :
        ParseState).subscriptions, p.2.status ≠ Status.tentative) ∧
     (∀ k s, lookup k (⟨[("I-AB", subJan)], some "USD"⟩ : ParseState).subscriptions = some s →
        s.status = Status.canceled →
        lookup k (⟨[("I-AB", { subJan with status := Status.canceled })], some "USD"⟩ :
            ParseState).subscriptions = some s ∨
        (∃ s2, lookup k (⟨[("I-AB", { subJan with status := Status.canceled })], some "USD"⟩ :
            ParseState).subscriptions = some s2 ∧ s2.status = Status.active ∧
          s2.length = 1 ∧ s2.start = s2.«end»)) ∧
     (∀ k s, lookup k (⟨[("I-AB", subJan)], some "USD"⟩ : ParseState).subscriptions = some s →
        s.status = Status.active →
        lookup k (⟨[("I-AB", { subJan with status := Status.canceled })], some "USD"⟩ :
            ParseState).subscriptions = some { s with status := Status.canceled } ∨
        (∃ s2, lookup k (⟨[("I-AB", { subJan with status := Status.canceled })], some "USD"⟩ :
            ParseState).subscriptions = some s2 ∧ s2.status = Status.active))) :=
  ⟨claim_C2_amended.1 rowFeb [("I-AB", { subJan with status := Status.tentative })]
      ("I-AB", { subJan with status := Status.tentative }) (by decide),
   claim_C2_amended.2 api404 ⟨[("I-AB", subJan)], some "USD"⟩ fileFeb
      ⟨[("I-AB", { subJan with status := Status.canceled })], some "USD"⟩ smFeb
      (by unfold keysNodup; decide) (by with_unfolding_all rfl)⟩

end PaPaNalyze
